import Mathlib

/-!
Shallow embedding of the poster-detection engine of `src/app.py` (a Telegram
bot that polls Nitter mirrors for new posters on monitored X handles) and
proofs of the specification claims about it.

Conventions of the embedding:
* Python `str` is Lean `String` (in this toolchain a wrapper around
  `List Char`); the Python string methods used by the code (`str.lower`,
  `str.lstrip`, `str.strip`) are embedded as explicit functions below.
* Python `set` of strings is `Finset String`; the global dict
  `SEEN_POSTERS : Dict[str, Set[str]]` is an association list so that the
  presence or absence of a key is observable, exactly as in a Python dict.
* Network I/O is an oracle: a fetch is a function from the handle to the
  outcome observed this cycle, and the per-mirror HTTP outcomes are a list in
  mirror order.  BeautifulSoup parsing is an oracle `parse` turning the raw
  page text into the list of timeline items, each carrying the author text of
  its `a.username > bdi` node when that structure resolves.
* Fallible Python code (exceptions) is embedded with `Option`/`Except`.
-/

/-! ## Embedding of the Python string primitives used by `app.py` -/

/-- Embeds Python `str.lower()` for the ASCII text this program handles:
lowercases every character (`Char.toLower` only maps basic latin letters,
matching the identifiers `[A-Za-z0-9_]` the program works with). -/
def pyLower (s : String) : String :=
  ⟨s.data.map Char.toLower⟩

/-- Embeds Python `str.lstrip('@')`: removes every leading `'@'`. -/
def pyLstripAt (s : String) : String :=
  ⟨s.data.dropWhile (fun c => c = '@')⟩

/-- Embeds the whitespace stripping performed by
`get_text(strip=True)` in `_extract_posters`: removes leading and trailing
whitespace. -/
def pyStrip (s : String) : String :=
  ⟨((s.data.dropWhile Char.isWhitespace).reverse.dropWhile
      Char.isWhitespace).reverse⟩

/-- Embeds the Python truthiness test `if username:` / `if not html:` on a
string: a string is falsy exactly when it is empty. -/
def pyTruthy (s : String) : Bool :=
  !s.data.isEmpty

/-! ## Embedding of the `SEEN_POSTERS` dict

`SEEN_POSTERS : Dict[str, Set[str]]` maps a handle to the set of poster
identifiers already observed for it.  We embed it as an association list so
that key presence (`handle in SEEN_POSTERS`, `del SEEN_POSTERS[handle]`) is
faithfully observable. -/

/-- The embedded type of the `SEEN_POSTERS` global. -/
def SeenDict : Type := List (String × Finset String)

instance : DecidableEq SeenDict := by
  unfold SeenDict
  infer_instance

/-- Embeds the Python dict lookup `d[k]` / `d.get(k)`: the value at the first
entry for the key, if any. -/
def dictLookup : SeenDict → String → Option (Finset String)
  | [], _ => none
  | (k, v) :: rest, h => if k = h then some v else dictLookup rest h

/-- Embeds the Python dict assignment `d[k] = v`: replaces the entry for `k`
when present, otherwise appends a new entry. -/
def dictInsert : SeenDict → String → Finset String → SeenDict
  | [], k, v => [(k, v)]
  | (k', v') :: rest, k, v =>
    if k' = k then (k, v) :: rest else (k', v') :: dictInsert rest k v

/-- Embeds the Python dict deletion `del d[k]`. -/
def dictErase (d : SeenDict) (k : String) : SeenDict :=
  d.filter (fun p => p.1 ≠ k)

/-- The seen set of a handle as the spec's `SeenStateStore.get` observes it:
the stored set, implicitly empty when the handle has no entry. -/
def seenGet (d : SeenDict) (h : String) : Finset String :=
  (dictLookup d h).getD ∅

/-! ## MirrorFetcher: `_get_nitter_html`

The network outcome of one mirror attempt for the handle: either a
`requests.RequestException` (network error or timeout, caught by the code) or
an HTTP response with its status code and body text. -/

/-- Outcome of `requests.get(f"{mirror}/{handle}", timeout=15)` at one
mirror. -/
inductive MirrorResult where
  | err : MirrorResult
  | resp (status : Nat) (text : String) : MirrorResult
deriving DecidableEq

/-- Whether a mirror attempt is accepted by `_get_nitter_html`
(`response.status_code == 200`). -/
def MirrorResult.isSuccess : MirrorResult → Bool
  | .resp 200 _ => true
  | _ => false

/-- Embeds `_get_nitter_html`, parametrised by the outcome each mirror in
`NITTER_MIRRORS` (in list order) produces for this handle: try each mirror in
order, return the body of the first response with status 200; a caught
exception or a non-200 status falls through to the next mirror; when all
mirrors fail, return `None` (no exception escapes). -/
def getNitterHtml : List MirrorResult → Option String
  | [] => none
  | .err :: rest => getNitterHtml rest
  | .resp status text :: rest =>
    if status = 200 then some text else getNitterHtml rest

/-! ## PageClassifier: `_is_community_page` and `_extract_posters` -/

/-- Embeds `_is_community_page`: false on falsy (empty) html, else the
substring test `"Community" in html`. -/
def isCommunityPage (html : String) : Bool :=
  if pyTruthy html then decide ("Community".data <:+: html.data) else false

/-- One BeautifulSoup timeline item (`div.timeline-item`) as
`_extract_posters` observes it: `some raw` when
`item.find('a', class_='username')` exists and has a `bdi` child, with `raw`
that node's text before `strip=True` is applied; `none` when the author
structure does not resolve. -/
def TimelineItem : Type := Option String

/-- The username taken from one timeline item by `_extract_posters`:
`bdi.get_text(strip=True).lstrip('@')`, lowercased, kept only when the
stripped name is truthy (non-empty); `none` when the item is skipped. -/
def posterOfItem (item : TimelineItem) : Option String :=
  match item with
  | none => none
  | some raw =>
    let username := pyLstripAt (pyStrip raw)
    if pyTruthy username then some (pyLower username) else none

/-- Embeds `_extract_posters html limit` over the parsed timeline items of
the page: consider at most `limit` items in document order
(`find_all(..., limit=limit)`), take each resolvable author username, and
collect them into a set. -/
def extractPosters (items : List TimelineItem) (limit : Nat) : Finset String :=
  ((items.take limit).filterMap posterOfItem).toFinset

/-! ## Global bot state

The three mutable globals of `app.py`: `SUBS`, `MONITORED_HANDLES`,
`SEEN_POSTERS`. -/

/-- The in-memory state of the bot process. -/
structure BotState where
  subs : Finset Int
  monitored : Finset String
  seen : SeenDict
deriving DecidableEq

/-- The empty state the globals are initialised to at process start. -/
def initialState : BotState :=
  { subs := ∅, monitored := ∅, seen := [] }

/-! ## NotificationFanout: `_send_alert_to_all`

The delivery outcome for one chat is an oracle `send : Int → Except Unit
Unit`; the `try`/`except` around `context.bot.send_message` catches every
failure inside the loop body, so the loop always continues to the next
subscriber. -/

/-- Embeds `_send_alert_to_all`: walk the subscriber set (as a list), attempt
delivery to each, record which attempts succeeded; a failed attempt is caught
and logged, never aborting the remaining attempts. -/
def sendAlertToAll (subs : List Int) (send : Int → Except Unit Unit) :
    List (Int × Bool) :=
  match subs with
  | [] => []
  | c :: rest =>
    let ok := match send c with
      | .ok _ => true
      | .error _ => false
    (c, ok) :: sendAlertToAll rest send

/-! ## The check cycle: `check_for_new_posters`

Oracles fixed for one cycle: `fetch handle` is what `_get_nitter_html handle`
returns this cycle, and `parse html` is the list of timeline items
BeautifulSoup finds in `html` (the abstraction of `soup.find_all('div',
class_='timeline-item')` plus the per-item author resolution). -/

/-- One alert handed to the fan-out: the handle, the set of new posters in
the message, and the `is_community` flag. -/
def Alert : Type := String × Finset String × Bool

instance : DecidableEq Alert := by
  unfold Alert
  infer_instance

/-- The DiffEngine step inlined at line 188 of `app.py`:
`new_posters = current_posters - SEEN_POSTERS[handle]`. -/
def diff (seen : SeenDict) (handle : String) (current : Finset String) :
    Finset String :=
  current \ seenGet seen handle

/-- The SeenStateStore update inlined at line 192 of `app.py`:
`SEEN_POSTERS[handle].update(new_posters)` unions the new posters into the
handle's stored set. -/
def seenUpdate (seen : SeenDict) (handle : String) (newPosters : Finset String) :
    SeenDict :=
  dictInsert seen handle (seenGet seen handle ∪ newPosters)

/-- The body of the per-handle loop of `check_for_new_posters` (lines
177-197): ensure the handle has a (possibly empty) entry in `SEEN_POSTERS`,
fetch, skip on falsy html, classify, extract posters, diff against the stored
seen set, and on a non-empty diff update the store and emit one alert.
Returns the updated `SEEN_POSTERS` and the alert, if any, for this handle. -/
def checkHandle (parse : String → List TimelineItem) (limit : Nat)
    (fetch : String → Option String) (seen : SeenDict) (handle : String) :
    SeenDict × Option Alert :=
  let seen1 := match dictLookup seen handle with
    | none => dictInsert seen handle ∅
    | some _ => seen
  match fetch handle with
  | none => (seen1, none)
  | some html =>
    if pyTruthy html then
      let isCommunity := isCommunityPage html
      let currentPosters := extractPosters (parse html) limit
      let newPosters := diff seen1 handle currentPosters
      if newPosters = ∅ then
        (seen1, none)
      else
        (seenUpdate seen1 handle newPosters,
         some (handle, newPosters, isCommunity))
    else
      (seen1, none)

/-- The externally visible effects of one check cycle: which handles were
fetched, which alerts were handed to the fan-out, and whether `_save_data`
ran at the end. -/
structure CycleEffects where
  fetched : List String
  alerts : List Alert
  saved : Bool
deriving DecidableEq

/-- One iteration of the handle loop of `check_for_new_posters`, threading
the `SEEN_POSTERS` dict and accumulating the alerts emitted so far. -/
def cycleStep (parse : String → List TimelineItem) (limit : Nat)
    (fetch : String → Option String) (acc : SeenDict × List Alert)
    (h : String) : SeenDict × List Alert :=
  let r := checkHandle parse limit fetch acc.1 h
  (r.1, acc.2 ++ r.2.toList)

/-- Embeds `check_for_new_posters`: when no handle is monitored, return at
once (no fetch, no alert, no save, state untouched); otherwise visit the
monitored handles in sorted order, run the per-handle body on each, then save
all data. -/
def checkForNewPosters (parse : String → List TimelineItem) (limit : Nat)
    (fetch : String → Option String) (st : BotState) :
    BotState × CycleEffects :=
  if st.monitored = ∅ then
    (st, { fetched := [], alerts := [], saved := false })
  else
    let handles := st.monitored.sort (· ≤ ·)
    let result := handles.foldl (cycleStep parse limit fetch) (st.seen, [])
    ({ st with seen := result.1 },
     { fetched := handles, alerts := result.2, saved := true })

/-! ## Persistence: `_load_data`

Each of the three files is abstracted by what this process run observes of
it: `none` when the file does not exist (the `exists()` guard skips it), and
otherwise the result of reading and parsing it — `Except.error ()` when the
read or parse raises (corrupt contents), `Except.ok v` when it parses to `v`.

`_load_data` wraps the three sequential loads (subscribers, then monitored
handles, then seen posters) in a single `try`/`except`: an exception anywhere
is caught and logged, leaving every global assigned so far at its new value
and every later global at its previous value.  Loading never raises. -/

/-- What one durable file yields this run: absent, corrupt, or parsed. -/
def FileRead (α : Type) : Type := Option (Except Unit α)

/-- One conditional load step inside the `try` block: skip an absent file,
propagate a parse exception, otherwise assign the parsed value. -/
def loadStep {α : Type} (file : FileRead α) (old : α) : Except Unit α :=
  match file with
  | none => .ok old
  | some (.error _) => .error ()
  | some (.ok v) => .ok v

/-- Embeds `_load_data` acting on the three globals: the three loads run in
order inside one `try`; the `except` clause catches any exception, so the
function totalises to the state reached when the exception (if any) was
raised. -/
def loadData (st : BotState) (subsFile : FileRead (Finset Int))
    (commFile : FileRead (Finset String)) (seenFile : FileRead SeenDict) :
    BotState :=
  match loadStep subsFile st.subs with
  | .error _ => st
  | .ok subs' =>
    let st1 := { st with subs := subs' }
    match loadStep commFile st1.monitored with
    | .error _ => st1
    | .ok monitored' =>
      let st2 := { st1 with monitored := monitored' }
      match loadStep seenFile st2.seen with
      | .error _ => st2
      | .ok seen' => { st2 with seen := seen' }

/-! ## Command layer: `cmd_add_handle` and `cmd_remove_handle`

A command receives `context.args` (the words after the command).  Effects
tracked: which handles were probed with `_get_nitter_html`, and whether
`_save_data` ran. -/

/-- The effects of one command invocation. -/
structure CommandEffects where
  fetched : List String
  saved : Bool
deriving DecidableEq

/-- Embeds the handle validation of `cmd_add_handle`:
`re.match(r"^[a-zA-Z0-9_]{1,15}$", handle)`. -/
def validHandle (handle : String) : Bool :=
  decide (1 ≤ handle.data.length) && decide (handle.data.length ≤ 15) &&
    handle.data.all (fun c => c.isAlphanum || c = '_')

/-- The handle normalisation shared by `cmd_add_handle` and
`cmd_remove_handle`: `context.args[0].lower().lstrip('@')`. -/
def normalizeHandle (arg : String) : String :=
  pyLstripAt (pyLower arg)

/-- Embeds `cmd_add_handle`: with no argument, or an argument whose
normalisation fails validation, reply and change nothing; if the handle is
already monitored, reply and change nothing (before any fetch); otherwise
probe the handle with `_get_nitter_html` and, only on a truthy result, add it
to the monitored set and save. -/
def cmdAddHandle (fetch : String → Option String) (st : BotState)
    (args : List String) : BotState × CommandEffects :=
  match args with
  | [] => (st, { fetched := [], saved := false })
  | arg :: _ =>
    let handle := normalizeHandle arg
    if validHandle handle then
      if handle ∈ st.monitored then
        (st, { fetched := [], saved := false })
      else
        match fetch handle with
        | none => (st, { fetched := [handle], saved := false })
        | some html =>
          if pyTruthy html then
            ({ st with monitored := insert handle st.monitored },
             { fetched := [handle], saved := true })
          else
            (st, { fetched := [handle], saved := false })
    else
      (st, { fetched := [], saved := false })

/-- Embeds `cmd_remove_handle`: with no argument or an unmonitored handle,
reply and change nothing; otherwise remove the handle from the monitored set,
delete its `SEEN_POSTERS` entry when present, and save. -/
def cmdRemoveHandle (st : BotState) (args : List String) :
    BotState × CommandEffects :=
  match args with
  | [] => (st, { fetched := [], saved := false })
  | arg :: _ =>
    let handle := normalizeHandle arg
    if handle ∈ st.monitored then
      ({ st with
          monitored := st.monitored.erase handle,
          seen := if (dictLookup st.seen handle).isSome then
              dictErase st.seen handle
            else st.seen },
       { fetched := [], saved := true })
    else
      (st, { fetched := [], saved := false })

/-! ## Helper lemmas about the dict embedding -/

theorem dictLookup_insert_self (d : SeenDict) (k : String) (v : Finset String) :
    dictLookup (dictInsert d k v) k = some v := by
  induction d with
  | nil => simp [dictInsert, dictLookup]
  | cons p rest ih =>
    obtain ⟨k', v'⟩ := p
    by_cases h : k' = k
    · simp [dictInsert, h, dictLookup]
    · simp [dictInsert, h, dictLookup, ih]

theorem dictLookup_insert_ne (d : SeenDict) (k k' : String) (v : Finset String)
    (h : k' ≠ k) : dictLookup (dictInsert d k v) k' = dictLookup d k' := by
  have hne : k ≠ k' := Ne.symm h
  induction d with
  | nil => simp [dictInsert, dictLookup, hne]
  | cons p rest ih =>
    obtain ⟨k'', v''⟩ := p
    by_cases hk : k'' = k
    · subst hk
      simp [dictInsert, dictLookup, hne]
    · simp [dictInsert, hk, dictLookup, ih]

theorem dictLookup_erase_self (d : SeenDict) (k : String) :
    dictLookup (dictErase d k) k = none := by
  induction d with
  | nil => simp [dictErase, dictLookup]
  | cons p rest ih =>
    obtain ⟨k', v'⟩ := p
    by_cases h : k' = k
    · simpa [dictErase, h] using ih
    · simpa [dictErase, dictLookup, h] using ih

theorem seenGet_update_self (d : SeenDict) (k : String) (X : Finset String) :
    seenGet (seenUpdate d k X) k = seenGet d k ∪ X := by
  simp [seenGet, seenUpdate, dictLookup_insert_self]

/-- The entry-ensuring step at lines 178-179 of `app.py`
(`if handle not in SEEN_POSTERS: SEEN_POSTERS[handle] = set()`) never changes
any observable seen set. -/
theorem seenGet_ensure_entry (d : SeenDict) (h k : String) :
    seenGet (match dictLookup d h with
      | none => dictInsert d h ∅
      | some _ => d) k = seenGet d k := by
  cases hd : dictLookup d h with
  | none =>
    by_cases hk : k = h
    · subst hk
      simp [seenGet, dictLookup_insert_self, hd]
    · simp [seenGet, dictLookup_insert_ne d h k ∅ hk]
  | some v => simp

/-! ## Claim C1: the diff step is exactly set difference against the stored
seen set -/

/-- C1: for every handle `h` and every set of currently-visible posters `P`,
the diff step returns exactly `P` minus the stored seen set for `h`; the
diff depends only on the stored seen set for `h` (so two diffs with the same
`P` and no intervening update agree); and inside the per-handle check, a
successful fetch reports exactly this set difference as the alert's new
posters. -/
theorem diff_is_set_difference :
    (∀ seen h P, diff seen h P = P \ seenGet seen h) ∧
    (∀ s₁ s₂ h P, seenGet s₁ h = seenGet s₂ h → diff s₁ h P = diff s₂ h P) ∧
    (∀ parse limit fetch seen h html, fetch h = some html →
      pyTruthy html = true →
      (checkHandle parse limit fetch seen h).2 =
        (if diff seen h (extractPosters (parse html) limit) = ∅ then none
         else some (h, diff seen h (extractPosters (parse html) limit),
           isCommunityPage html))) := by
  refine ⟨fun seen h P => rfl, fun s₁ s₂ h P he => ?_, ?_⟩
  · simp [diff, he]
  · intro parse limit fetch seen h html hf ht
    have hsg : ∀ k, seenGet (match dictLookup seen h with
        | none => dictInsert seen h ∅
        | some _ => seen) k = seenGet seen k :=
      fun k => seenGet_ensure_entry seen h k
    unfold checkHandle
    rw [hf]
    simp only [ht, if_true]
    have hdiff : diff (match dictLookup seen h with
        | none => dictInsert seen h ∅
        | some _ => seen) h (extractPosters (parse html) limit) =
        diff seen h (extractPosters (parse html) limit) := by
      simp [diff, hsg]
    by_cases hnew : diff seen h (extractPosters (parse html) limit) = ∅
    · simp [hdiff, hnew]
    · simp [hdiff, hnew]

/-- Witness for C1 at a concrete page with one poster and an empty store. -/
theorem diff_is_set_difference_witness :
    (checkHandle (fun _ => [some "bob"]) 20 (fun _ => some "page") []
        "solana").2 =
      (if diff [] "solana" (extractPosters [some "bob"] 20) = ∅ then none
       else some ("solana", diff [] "solana" (extractPosters [some "bob"] 20),
         isCommunityPage "page")) :=
  diff_is_set_difference.2.2 (fun _ => [some "bob"]) 20 (fun _ => some "page")
    [] "solana" "page" rfl (by decide)

/-! ## Claim C2: update makes the seen set a superset and kills
re-notification -/

/-- C2: after the store's update unions `X` into `h`'s seen set, the seen set
for `h` contains `X`, and a subsequent diff of `h` against `X` is empty. -/
theorem update_superset_no_renotify :
    ∀ seen h X, X ⊆ seenGet (seenUpdate seen h X) h ∧
      diff (seenUpdate seen h X) h X = ∅ := by
  intro seen h X
  rw [seenGet_update_self]
  exact ⟨Finset.subset_union_right,
    by simp [diff, seenGet_update_self]⟩

/-! ## Claim C4: mirror fallback in list order, `None` on exhaustion -/

/-- C4: `_get_nitter_html` tries each mirror in list order and returns the
body of the first response with a success status; when every mirror fails
(caught exception or non-success status), it returns `None` without
raising. -/
theorem getNitterHtml_mirror_fallback :
    (∀ rs : List MirrorResult, (∀ r ∈ rs, r.isSuccess = false) →
      getNitterHtml rs = none) ∧
    (∀ (rs₁ : List MirrorResult) (text : String) (rs₂ : List MirrorResult),
      (∀ r ∈ rs₁, r.isSuccess = false) →
      getNitterHtml (rs₁ ++ .resp 200 text :: rs₂) = some text) := by
  constructor
  · intro rs h
    induction rs with
    | nil => rfl
    | cons r rest ih =>
      have hr := h r (by simp)
      have hrest := ih fun r' hm => h r' (by simp [hm])
      cases r with
      | err => simpa [getNitterHtml] using hrest
      | resp status text =>
        have hs : status ≠ 200 := by
          intro e
          subst e
          simp [MirrorResult.isSuccess] at hr
        simpa [getNitterHtml, hs] using hrest
  · intro rs₁ text rs₂ h
    induction rs₁ with
    | nil => simp [getNitterHtml]
    | cons r rest ih =>
      have hr := h r (by simp)
      have hrest := ih fun r' hm => h r' (by simp [hm])
      cases r with
      | err => simpa [getNitterHtml] using hrest
      | resp status t =>
        have hs : status ≠ 200 := by
          intro e
          subst e
          simp [MirrorResult.isSuccess] at hr
        simpa [getNitterHtml, hs] using hrest

/-- Witness for C4: first mirror raises, second answers 404, third answers
200; the third mirror's body is returned.  With every mirror failing, `None`
is returned. -/
theorem getNitterHtml_mirror_fallback_witness :
    getNitterHtml [.err, .resp 404 "nf", .resp 503 "busy"] = none ∧
    getNitterHtml ([.err, .resp 404 "nf"] ++ .resp 200 "page" :: []) =
      some "page" :=
  ⟨getNitterHtml_mirror_fallback.1 [.err, .resp 404 "nf", .resp 503 "busy"]
      (by decide),
    getNitterHtml_mirror_fallback.2 [.err, .resp 404 "nf"] "page" []
      (by decide)⟩

/-! ## Claim C8: fan-out attempts every subscriber independently -/

/-- Whether one delivery attempt succeeded (the `try` body completed). -/
def sendOk (r : Except Unit Unit) : Bool :=
  match r with
  | .ok _ => true
  | .error _ => false

/-- C8: `_send_alert_to_all` attempts delivery to every subscriber in order,
whatever the delivery outcomes are, and each subscriber's recorded outcome is
exactly its own attempt's outcome — a failure for one subscriber never
prevents the attempts for the others and the loop never raises. -/
theorem sendAlertToAll_attempts_all :
    ∀ (subs : List Int) (send : Int → Except Unit Unit),
      (sendAlertToAll subs send).map Prod.fst = subs ∧
      ∀ c ∈ subs, (c, sendOk (send c)) ∈ sendAlertToAll subs send := by
  intro subs send
  induction subs with
  | nil => simp [sendAlertToAll]
  | cons c rest ih =>
    refine ⟨by simp [sendAlertToAll, ih.1], ?_⟩
    intro c' hc'
    rcases List.mem_cons.mp hc' with h | h
    · subst h
      cases hs : send c' <;> simp [sendAlertToAll, sendOk, hs]
    · exact List.mem_cons_of_mem _ (by simpa [sendAlertToAll] using ih.2 c' h)

/-- Witness for C8: delivery to chat 1 fails, yet chat 2 is still attempted
(and succeeds). -/
theorem sendAlertToAll_attempts_all_witness :
    (sendAlertToAll [1, 2]
        (fun c => if c = 1 then .error () else .ok ())).map Prod.fst =
      [1, 2] ∧
    ((2 : Int), sendOk (if (2 : Int) = 1 then .error () else .ok ())) ∈
      sendAlertToAll [1, 2] (fun c => if c = 1 then .error () else .ok ()) :=
  ⟨(sendAlertToAll_attempts_all [1, 2] _).1,
    (sendAlertToAll_attempts_all [1, 2] _).2 2 (by decide)⟩

/-! ## Claim C9: a cycle with no monitored handles is a no-op -/

/-- C9: when the monitored set is empty, `check_for_new_posters` returns at
once: no handle is fetched, no alert is sent, `_save_data` does not run, and
the state is unchanged. -/
theorem emptyMonitored_cycle_noop :
    ∀ parse limit fetch st, st.monitored = ∅ →
      checkForNewPosters parse limit fetch st =
        (st, { fetched := [], alerts := [], saved := false }) := by
  intro parse limit fetch st h
  unfold checkForNewPosters
  rw [if_pos h]

/-- Witness for C9 at the freshly started (empty) state. -/
theorem emptyMonitored_cycle_noop_witness :
    checkForNewPosters (fun _ => []) 20 (fun _ => none) initialState =
      (initialState, { fetched := [], alerts := [], saved := false }) :=
  emptyMonitored_cycle_noop (fun _ => []) 20 (fun _ => none) initialState rfl

/-! ## Character-level lemmas for the poster normalisation (claim C5) -/

theorem charToLower_of_upper (c : Char) (h1 : 65 ≤ c.toNat)
    (h2 : c.toNat ≤ 90) : (Char.toLower c).toNat = c.toNat + 32 := by
  unfold Char.toLower
  rw [if_pos ⟨h1, h2⟩]
  generalize c.toNat = n at h1 h2
  interval_cases n <;> decide

theorem charToLower_of_not_upper (c : Char)
    (h : ¬(65 ≤ c.toNat ∧ c.toNat ≤ 90)) : Char.toLower c = c := by
  unfold Char.toLower
  rw [if_neg h]

/-- The output of `Char.toLower` is never an upper-case ASCII letter. -/
theorem charToLower_not_upper_out (c : Char) :
    ¬(65 ≤ (Char.toLower c).toNat ∧ (Char.toLower c).toNat ≤ 90) := by
  by_cases h : 65 ≤ c.toNat ∧ c.toNat ≤ 90
  · rw [charToLower_of_upper c h.1 h.2]
    omega
  · rw [charToLower_of_not_upper c h]
    exact h

/-- `Char.toLower` maps only `'@'` to `'@'`. -/
theorem charToLower_ne_at (c : Char) (h : c ≠ '@') : Char.toLower c ≠ '@' := by
  by_cases hu : 65 ≤ c.toNat ∧ c.toNat ≤ 90
  · intro e
    have h32 := charToLower_of_upper c hu.1 hu.2
    rw [e] at h32
    have h64 : ('@' : Char).toNat = 64 := by decide
    omega
  · rw [charToLower_of_not_upper c hu]
    exact h

/-- The head of a list after dropping every leading `'@'` is not `'@'`. -/
theorem head_dropWhile_at_ne (l : List Char) :
    (l.dropWhile (fun c => c = '@')).head? ≠ some '@' := by
  induction l with
  | nil => simp
  | cons c rest ih =>
    by_cases h : c = '@'
    · simpa [List.dropWhile_cons, h] using ih
    · simp [List.dropWhile_cons, h]

/-- Every username `_extract_posters` keeps from an item is non-empty,
contains no upper-case ASCII letter, and does not start with `'@'`. -/
theorem posterOfItem_normalized (item : TimelineItem) (x : String)
    (h : posterOfItem item = some x) :
    x.data ≠ [] ∧ (∀ c ∈ x.data, ¬(65 ≤ c.toNat ∧ c.toNat ≤ 90)) ∧
      x.data.head? ≠ some '@' := by
  cases item with
  | none => simp [posterOfItem] at h
  | some raw =>
    simp only [posterOfItem] at h
    by_cases ht : pyTruthy (pyLstripAt (pyStrip raw)) = true
    · rw [if_pos ht] at h
      have hx : x = pyLower (pyLstripAt (pyStrip raw)) := (Option.some_inj.mp h).symm
      have hdata : x.data = (pyLstripAt (pyStrip raw)).data.map Char.toLower := by
        rw [hx]
        rfl
      have hne : (pyLstripAt (pyStrip raw)).data ≠ [] := by
        simpa [pyTruthy] using ht
      refine ⟨?_, ?_, ?_⟩
      · rw [hdata]
        simpa using hne
      · intro c hc
        rw [hdata] at hc
        obtain ⟨a, _, rfl⟩ := List.mem_map.mp hc
        exact charToLower_not_upper_out a
      · rw [hdata, List.head?_map]
        obtain ⟨c, rest, he⟩ := List.exists_cons_of_ne_nil hne
        have hhead : (pyLstripAt (pyStrip raw)).data.head? = some c := by
          rw [he]
          rfl
        have hcne : c ≠ '@' := by
          have := head_dropWhile_at_ne (pyStrip raw).data
          rw [show (pyStrip raw).data.dropWhile (fun c => c = '@') =
              (pyLstripAt (pyStrip raw)).data from rfl, hhead] at this
          exact fun e => this (by rw [e])
        rw [hhead]
        simpa using charToLower_ne_at c hcne
    · rw [if_neg ht] at h
      exact absurd h (by simp)

/-! ## Claim C5: poster extraction is bounded, normalised, skip-safe and
duplicate-collapsing -/

/-- C5: poster extraction looks at no more than `limit` items in document
order (extraction only depends on the first `limit` items and yields at most
`limit` identifiers); every returned identifier is non-empty, free of
upper-case ASCII letters, and does not start with the `'@'` sigil; an item
without a resolvable author is skipped silently; and duplicated authors
collapse because the result is a set. -/
theorem extractPosters_normalized :
    ∀ (items : List TimelineItem) (limit : Nat),
      (∀ x ∈ extractPosters items limit,
        x.data ≠ [] ∧ (∀ c ∈ x.data, ¬(65 ≤ c.toNat ∧ c.toNat ≤ 90)) ∧
          x.data.head? ≠ some '@') ∧
      (extractPosters items limit).card ≤ limit ∧
      extractPosters items limit = extractPosters (items.take limit) limit ∧
      extractPosters (none :: items) (limit + 1) = extractPosters items limit ∧
      (∀ item, extractPosters (item :: item :: items) (limit + 2) =
        extractPosters (item :: items) (limit + 1)) := by
  intro items limit
  refine ⟨?_, ?_, ?_, ?_, ?_⟩
  · intro x hx
    obtain ⟨item, _, hpi⟩ :=
      List.mem_filterMap.mp (List.mem_toFinset.mp hx)
    exact posterOfItem_normalized item x hpi
  · calc (extractPosters items limit).card
        ≤ ((items.take limit).filterMap posterOfItem).length :=
          List.toFinset_card_le _
      _ ≤ (items.take limit).length := List.length_filterMap_le _ _
      _ ≤ limit := List.length_take_le _ _
  · simp [extractPosters, List.take_take]
  · simp [extractPosters, List.take_succ_cons, List.filterMap_cons,
      posterOfItem]
  · intro item
    cases hpi : posterOfItem item <;>
      simp [extractPosters, List.take_succ_cons, List.filterMap_cons, hpi]

/-- Witness for C5 at a concrete page: the raw author text `" @Alice "`
normalises to the identifier `"alice"`, which is non-empty, lower-case, and
sigil-free. -/
theorem extractPosters_normalized_witness :
    "alice" ∈ extractPosters [some " @Alice "] 20 ∧
    ("alice" : String).data ≠ [] ∧
    (∀ c ∈ ("alice" : String).data, ¬(65 ≤ c.toNat ∧ c.toNat ≤ 90)) ∧
    ("alice" : String).data.head? ≠ some '@' :=
  ⟨by decide,
    (extractPosters_normalized [some " @Alice "] 20).1 "alice" (by decide)⟩

/-! ## Claim C7: removing a handle erases its history entirely -/

/-- C7: after `cmd_remove_handle` removes a monitored handle, its
`SEEN_POSTERS` entry is gone, its observable seen set is empty regardless of
prior history, and a first check after re-adding would diff against the empty
set — every visible poster would be reported as new. -/
theorem removeHandle_clears_seen :
    ∀ (st : BotState) (arg : String) (rest : List String),
      normalizeHandle arg ∈ st.monitored →
      dictLookup (cmdRemoveHandle st (arg :: rest)).1.seen
          (normalizeHandle arg) = none ∧
      seenGet (cmdRemoveHandle st (arg :: rest)).1.seen
          (normalizeHandle arg) = ∅ ∧
      ∀ P, diff (cmdRemoveHandle st (arg :: rest)).1.seen
          (normalizeHandle arg) P = P := by
  intro st arg rest hmem
  have hcons : cmdRemoveHandle st (arg :: rest) =
      (if normalizeHandle arg ∈ st.monitored then
        ({ subs := st.subs,
           monitored := st.monitored.erase (normalizeHandle arg),
           seen := if (dictLookup st.seen (normalizeHandle arg)).isSome then
               dictErase st.seen (normalizeHandle arg)
             else st.seen },
         { fetched := [], saved := true })
      else (st, { fetched := [], saved := false })) := rfl
  have hnone : dictLookup (cmdRemoveHandle st (arg :: rest)).1.seen
      (normalizeHandle arg) = none := by
    rw [hcons, if_pos hmem]
    cases hl : dictLookup st.seen (normalizeHandle arg) with
    | none => simp [hl]
    | some v => simpa [hl] using dictLookup_erase_self st.seen (normalizeHandle arg)
  refine ⟨hnone, ?_, ?_⟩
  · simp [seenGet, hnone]
  · intro P
    simp [diff, seenGet, hnone]

/-- Witness for C7: removing `solana`, whose stored seen set is
`{"alice"}`, leaves it with an empty seen set and a full first diff. -/
theorem removeHandle_clears_seen_witness :
    dictLookup (cmdRemoveHandle
        { subs := ∅, monitored := {"solana"},
          seen := [("solana", {"alice"})] } ["Solana"]).1.seen
        (normalizeHandle "Solana") = none ∧
    seenGet (cmdRemoveHandle
        { subs := ∅, monitored := {"solana"},
          seen := [("solana", {"alice"})] } ["Solana"]).1.seen
        (normalizeHandle "Solana") = ∅ ∧
    ∀ P, diff (cmdRemoveHandle
        { subs := ∅, monitored := {"solana"},
          seen := [("solana", {"alice"})] } ["Solana"]).1.seen
        (normalizeHandle "Solana") P = P :=
  removeHandle_clears_seen
    { subs := ∅, monitored := {"solana"}, seen := [("solana", {"alice"})] }
    "Solana" [] (by decide)

/-! ## Claim C10: adding an already-monitored handle is a no-op -/

/-- C10: when the normalised handle is already monitored, `cmd_add_handle`
changes no state, performs no fetch probe, and saves nothing — it replies
that the handle is already monitored before the probe is even reached. -/
theorem addHandle_idempotent :
    ∀ (fetch : String → Option String) (st : BotState) (arg : String)
      (rest : List String),
      normalizeHandle arg ∈ st.monitored →
      cmdAddHandle fetch st (arg :: rest) =
        (st, { fetched := [], saved := false }) := by
  intro fetch st arg rest hmem
  by_cases hv : validHandle (normalizeHandle arg) = true
  · simp [cmdAddHandle, hv, hmem]
  · simp [cmdAddHandle, hv]

/-- Witness for C10: re-adding `solana` (written `@Solana`) while it is
already monitored changes nothing and probes nothing. -/
theorem addHandle_idempotent_witness :
    cmdAddHandle (fun _ => some "page")
        { subs := ∅, monitored := {"solana"}, seen := [] } ["@Solana"] =
      ({ subs := ∅, monitored := {"solana"}, seen := [] },
        { fetched := [], saved := false }) :=
  addHandle_idempotent (fun _ => some "page")
    { subs := ∅, monitored := {"solana"}, seen := [] } "@Solana" []
    (by decide)

/-! ## Claim C3: what a failed fetch does and does not mutate -/

/-- A failed fetch for a handle in this cycle: `_get_nitter_html` returned
`None`, or returned a falsy (empty) body, so that `if not html` skips the
handle. -/
def fetchFailed (fetch : String → Option String) (h : String) : Prop :=
  fetch h = none ∨ ∃ s, fetch h = some s ∧ pyTruthy s = false

/-- On a failed fetch the per-handle body emits no alert and leaves every
observable seen set unchanged (it may only have inserted an empty entry for
the handle). -/
theorem checkHandle_failed (parse : String → List TimelineItem) (limit : Nat)
    (fetch : String → Option String) (seen : SeenDict) (h : String)
    (hf : fetchFailed fetch h) :
    (∀ k, seenGet (checkHandle parse limit fetch seen h).1 k = seenGet seen k) ∧
      (checkHandle parse limit fetch seen h).2 = none := by
  rcases hf with hn | ⟨s, hs, ht⟩
  · unfold checkHandle
    rw [hn]
    exact ⟨fun k => seenGet_ensure_entry seen h k, by trivial⟩
  · unfold checkHandle
    rw [hs]
    simp only [ht, Bool.false_eq_true, if_false]
    exact ⟨fun k => seenGet_ensure_entry seen h k, by trivial⟩

/-- The per-handle body for handle `h` never changes the observable seen set
of any other handle. -/
theorem checkHandle_seenGet_other (parse : String → List TimelineItem)
    (limit : Nat) (fetch : String → Option String) (seen : SeenDict)
    (h k : String) (hk : k ≠ h) :
    seenGet (checkHandle parse limit fetch seen h).1 k = seenGet seen k := by
  have hens := seenGet_ensure_entry seen h k
  unfold checkHandle
  cases hfe : fetch h with
  | none => exact hens
  | some html =>
    by_cases ht : pyTruthy html = true
    · simp only [ht, if_true]
      by_cases hd : diff (match dictLookup seen h with
          | none => dictInsert seen h ∅
          | some _ => seen) h (extractPosters (parse html) limit) = ∅
      · simp only [hd, if_true]
        exact hens
      · simp only [hd, if_false]
        rw [show seenGet (seenUpdate (match dictLookup seen h with
            | none => dictInsert seen h ∅
            | some _ => seen) h _) k =
            seenGet (match dictLookup seen h with
            | none => dictInsert seen h ∅
            | some _ => seen) k from by
          unfold seenUpdate seenGet
          rw [dictLookup_insert_ne _ h k _ hk]]
        exact hens
    · simp only [Bool.not_eq_true] at ht
      simp only [ht, Bool.false_eq_true, if_false]
      exact hens

/-- Every alert the per-handle body emits names its own handle. -/
theorem checkHandle_alert_handle (parse : String → List TimelineItem)
    (limit : Nat) (fetch : String → Option String) (seen : SeenDict)
    (h : String) (a : Alert)
    (ha : (checkHandle parse limit fetch seen h).2 = some a) : a.1 = h := by
  unfold checkHandle at ha
  cases hfe : fetch h with
  | none =>
    rw [hfe] at ha
    exact absurd ha (by simp)
  | some html =>
    rw [hfe] at ha
    by_cases ht : pyTruthy html = true
    · simp only [ht, if_true] at ha
      by_cases hd : diff (match dictLookup seen h with
          | none => dictInsert seen h ∅
          | some _ => seen) h (extractPosters (parse html) limit) = ∅
      · simp only [hd, if_true] at ha
        exact absurd ha (by simp)
      · simp only [hd, if_false] at ha
        have := Option.some_inj.mp ha
        rw [← this]
    · simp only [Bool.not_eq_true] at ht
      simp only [ht, Bool.false_eq_true, if_false] at ha
      exact absurd ha (by simp)

/-- Across the whole handle loop, a handle whose fetch failed keeps its
observable seen set, and no alert for it is added. -/
theorem foldl_cycleStep_failed (parse : String → List TimelineItem)
    (limit : Nat) (fetch : String → Option String) (h : String)
    (hf : fetchFailed fetch h) :
    ∀ (hs : List String) (seen : SeenDict) (acc : List Alert),
      seenGet (hs.foldl (cycleStep parse limit fetch) (seen, acc)).1 h =
        seenGet seen h ∧
      ∀ a ∈ (hs.foldl (cycleStep parse limit fetch) (seen, acc)).2,
        a.1 = h → a ∈ acc := by
  intro hs
  induction hs with
  | nil => exact fun seen acc => ⟨rfl, fun a ha _ => ha⟩
  | cons h' rest ih =>
    intro seen acc
    have hstep : (rest.foldl (cycleStep parse limit fetch)
        (cycleStep parse limit fetch (seen, acc) h')) =
        rest.foldl (cycleStep parse limit fetch)
          ((checkHandle parse limit fetch seen h').1,
           acc ++ (checkHandle parse limit fetch seen h').2.toList) := rfl
    have hrec := ih (checkHandle parse limit fetch seen h').1
      (acc ++ (checkHandle parse limit fetch seen h').2.toList)
    constructor
    · rw [List.foldl_cons, hstep, hrec.1]
      by_cases hh : h = h'
      · subst hh
        exact (checkHandle_failed parse limit fetch seen h hf).1 h
      · exact checkHandle_seenGet_other parse limit fetch seen h' h hh
    · intro a ha hah
      rw [List.foldl_cons, hstep] at ha
      have := hrec.2 a ha hah
      rcases List.mem_append.mp this with hacc | htl
      · exact hacc
      · exfalso
        by_cases hh : h = h'
        · subst hh
          rw [(checkHandle_failed parse limit fetch seen h hf).2] at htl
          simp at htl
        · cases hsnd : (checkHandle parse limit fetch seen h').2 with
          | none =>
            rw [hsnd] at htl
            simp at htl
          | some a' =>
            rw [hsnd] at htl
            have : a = a' := by simpa using htl
            subst this
            exact hh (hah ▸ (checkHandle_alert_handle parse limit fetch seen
              h' a hsnd) ▸ rfl)

/-- Counterexample to C3 as stated: with an empty `SEEN_POSTERS` store, one
monitored handle `"a"`, and a fetch that fails for every handle, the cycle
still mutates the store — lines 178-179 of `app.py` insert an empty entry
for `"a"` before the fetch, so the store is not left exactly as it was. -/
theorem fetchFail_store_mutated :
    (fun _ : String => (none : Option String)) "a" = none ∧
    (checkForNewPosters (fun _ => []) 20 (fun _ => none)
        { subs := ∅, monitored := {"a"}, seen := [] }).1.seen =
      [("a", ∅)] ∧
    ([("a", ∅)] : SeenDict) ≠ ([] : SeenDict) := by
  refine ⟨rfl, ?_, by decide⟩
  unfold checkForNewPosters
  rw [if_neg (Finset.singleton_ne_empty "a"), Finset.sort_singleton]
  rfl

/-- C3 (amended): if the fetch for a monitored handle fails in a check
cycle, the cycle adds nothing to that handle's observable seen set — `get`
returns exactly what it returned before — and emits no alert for it; the
handle is skipped until the next cycle.  (The store may still gain an empty
entry for the handle, inserted before the fetch, and the end-of-cycle save
still runs.) -/
theorem fetchFail_preserves_observable_seen :
    ∀ (parse : String → List TimelineItem) (limit : Nat)
      (fetch : String → Option String) (st : BotState) (h : String),
      h ∈ st.monitored → fetchFailed fetch h →
      seenGet (checkForNewPosters parse limit fetch st).1.seen h =
        seenGet st.seen h ∧
      ∀ a ∈ (checkForNewPosters parse limit fetch st).2.alerts, a.1 ≠ h := by
  intro parse limit fetch st h hmem hf
  have hne : ¬ st.monitored = ∅ := by
    intro e
    rw [e] at hmem
    exact absurd hmem (Finset.not_mem_empty h)
  unfold checkForNewPosters
  rw [if_neg hne]
  have hfold := foldl_cycleStep_failed parse limit fetch h hf
    (st.monitored.sort (· ≤ ·)) st.seen []
  exact ⟨hfold.1, fun a ha hah => List.not_mem_nil a (hfold.2 a ha hah)⟩

/-- Witness for the amended C3: handle `"a"` with stored seen set `{"x"}`
keeps exactly `{"x"}` observable through a cycle whose fetch fails, and the
cycle emits no alert for `"a"`. -/
theorem fetchFail_preserves_observable_seen_witness :
    seenGet (checkForNewPosters (fun _ => []) 20 (fun _ => none)
        { subs := ∅, monitored := {"a"}, seen := [("a", {"x"})] }).1.seen "a" =
      seenGet [("a", {"x"})] "a" ∧
    ∀ a ∈ (checkForNewPosters (fun _ => []) 20 (fun _ => none)
        { subs := ∅, monitored := {"a"}, seen := [("a", {"x"})] }).2.alerts,
      a.1 ≠ "a" :=
  fetchFail_preserves_observable_seen (fun _ => []) 20 (fun _ => none)
    { subs := ∅, monitored := {"a"}, seen := [("a", {"x"})] } "a"
    (by decide) (Or.inl rfl)

/-! ## Claim C6: how `_load_data` tolerates missing and corrupt files -/

/-- The value a record has after its load step: the parsed contents when the
file existed and parsed, otherwise the previous (initially empty) value. -/
def fileValue {α : Type} (f : FileRead α) (old : α) : α :=
  match f with
  | some (.ok v) => v
  | _ => old

theorem loadStep_ok {α : Type} (f : FileRead α) (old : α)
    (h : f ≠ some (.error ())) : loadStep f old = .ok (fileValue f old) :=
  match f, h with
  | none, _ => rfl
  | some (.error ()), h => absurd rfl h
  | some (.ok _), _ => rfl

/-- Counterexample to C6 as stated: a corrupt subscribers file prevents the
monitored-handle record from loading even though its own file is present and
well-formed — the single `try`/`except` of `_load_data` aborts the whole
sequence, so the records are not loadable independently. -/
theorem loadData_corrupt_blocks_others :
    loadData initialState (some (.error ())) (some (.ok {"solana"})) none =
      initialState ∧
    initialState.monitored = ∅ ∧
    ({"solana"} : Finset String) ≠ ∅ :=
  ⟨rfl, rfl, Finset.singleton_ne_empty _⟩

/-- C6 (amended): `_load_data` never raises and a missing file is tolerated
independently — with no corrupt file, each of the three records loads from
its own file alone (absent files leave their record at its previous,
initially empty, value).  A corrupt file is caught and logged, but it aborts
the rest of the load: its own record and every record after it in load order
(subscribers, then handles, then seen posters) keep their previous values,
while the records loaded before it keep their newly loaded values. -/
theorem loadData_sequential_tolerance :
    ∀ (st : BotState) (f1 : FileRead (Finset Int))
      (f2 : FileRead (Finset String)) (f3 : FileRead SeenDict),
      (f1 = some (.error ()) → loadData st f1 f2 f3 = st) ∧
      (f1 ≠ some (.error ()) → f2 = some (.error ()) →
        loadData st f1 f2 f3 =
          { subs := fileValue f1 st.subs, monitored := st.monitored,
            seen := st.seen }) ∧
      (f1 ≠ some (.error ()) → f2 ≠ some (.error ()) →
        f3 = some (.error ()) →
        loadData st f1 f2 f3 =
          { subs := fileValue f1 st.subs,
            monitored := fileValue f2 st.monitored, seen := st.seen }) ∧
      (f1 ≠ some (.error ()) → f2 ≠ some (.error ()) →
        f3 ≠ some (.error ()) →
        loadData st f1 f2 f3 =
          { subs := fileValue f1 st.subs,
            monitored := fileValue f2 st.monitored,
            seen := fileValue f3 st.seen }) := by
  intro st f1 f2 f3
  refine ⟨?_, ?_, ?_, ?_⟩
  · intro h1
    rw [h1]
    rfl
  · intro h1 h2
    unfold loadData
    rw [loadStep_ok f1 st.subs h1]
    dsimp only
    rw [h2]
    rfl
  · intro h1 h2 h3
    unfold loadData
    rw [loadStep_ok f1 st.subs h1]
    dsimp only
    rw [loadStep_ok f2 st.monitored h2]
    dsimp only
    rw [h3]
    rfl
  · intro h1 h2 h3
    unfold loadData
    rw [loadStep_ok f1 st.subs h1]
    dsimp only
    rw [loadStep_ok f2 st.monitored h2]
    dsimp only
    rw [loadStep_ok f3 st.seen h3]

/-- Witness for the amended C6: subscribers file absent, handles and seen
files well-formed — the two present records load, the absent one stays
empty. -/
theorem loadData_sequential_tolerance_witness :
    loadData initialState none (some (.ok {"solana"}))
        (some (.ok [("solana", {"alice"})])) =
      { subs := fileValue (none : FileRead (Finset Int)) initialState.subs,
        monitored := fileValue (some (.ok {"solana"})) initialState.monitored,
        seen := fileValue (some (.ok [("solana", {"alice"})]))
          initialState.seen } :=
  (loadData_sequential_tolerance initialState none (some (.ok {"solana"}))
    (some (.ok [("solana", {"alice"})]))).2.2.2 (by simp)
    (fun h => Except.noConfusion (Option.some_inj.mp h))
    (fun h => Except.noConfusion (Option.some_inj.mp h))
